import Mathlib

/-!
Verification of the dummy_c_rust compiler core against its specification.

The development shallowly embeds the Rust sources:
* `OldParser` embeds `src/parser.rs` (the nom-based expression parser),
  including the position-tracking `located` combinator, `fold_binexp`
  and the additive / multiplicative / postfix / primary expression parsers.
* `Resolver` embeds `src/resolver/error.rs` and
  `src/resolver/expression/assignment.rs` (with `resolve_expression`
  modelled from the specification, since its source is not present).
* `CodegenOld` embeds `get_variable` from `src/llvm_codegen/mod.rs`.
* `Builder` embeds `eval_binary_expr` / `gen_expression` from
  `src/builder/expression.rs` and `gen_return` from
  `src/builder/statement.rs`, over an explicit instruction-trace model of
  the LLVM builder.
-/

/-- The `BinaryOp` of `src/ast.rs`. -/
inductive BinaryOp where
  | Add
  | Sub
  | Mul
  | Div
deriving Repr, DecidableEq

namespace OldParser

/-- Source position as tracked by `nom_locate`: 1-based line and column. -/
structure Position where
  line : Nat
  col : Nat
deriving Repr, DecidableEq

/-- The `Range` of `src/parser.rs`: start and end position plus the consumed fragment. -/
structure Range where
  from_ : Position
  to_ : Position
  fragment : String
deriving Repr, DecidableEq

/-- The `Located<T>` of `src/parser.rs`: a range paired with a value. -/
structure Located (α : Type) where
  range : Range
  value : α
deriving Repr, DecidableEq

/-- A `LocatedSpan<&str>`: the remaining input together with the current
line and column (1-based, as in `nom_locate`). -/
structure Span where
  text : List Char
  line : Nat
  col : Nat
deriving Repr, DecidableEq

def Span.ofString (s : String) : Span := ⟨s.data, 1, 1⟩

/-- Result of running a nom parser.  `err` is a recoverable nom error
(`Err::Error`); `panicked` models a Rust panic raised inside a parser
(e.g. a failing `unwrap`), which no combinator can recover from. -/
inductive PResult (α : Type) where
  | ok (s : Span) (a : α)
  | err
  | panicked
deriving Repr, DecidableEq

/-- A parser over located spans. -/
def P (α : Type) : Type := Span → PResult α

def stepChar (p : Nat × Nat) (ch : Char) : Nat × Nat :=
  if ch = '\n' then (p.1 + 1, 1) else (p.1, p.2 + 1)

def advancePos (p : Nat × Nat) (cs : List Char) : Nat × Nat :=
  cs.foldl stepChar p

/-- Consume the first `n` characters of a span, updating line/column. -/
def Span.take (sp : Span) (n : Nat) : Span :=
  let q := advancePos (sp.line, sp.col) (sp.text.take n)
  ⟨sp.text.drop n, q.1, q.2⟩

def pmap {α β : Type} (f : α → β) (p : P α) : P β := fun s =>
  match p s with
  | .ok s' a => .ok s' (f a)
  | .err => .err
  | .panicked => .panicked

/-- The `map` whose mapping function may panic (models a panicking closure
inside nom's `map`): `none` from `f` is a panic, not a parse error. -/
def pmapPanic {α β : Type} (f : α → Option β) (p : P α) : P β := fun s =>
  match p s with
  | .ok s' a =>
    match f a with
    | some b => .ok s' b
    | none => .panicked
  | .err => .err
  | .panicked => .panicked

/-- nom `alt` for two branches: the second runs on the original input when
the first fails recoverably; a panic propagates. -/
def palt {α : Type} (p q : P α) : P α := fun s =>
  match p s with
  | .ok s' a => .ok s' a
  | .err => q s
  | .panicked => .panicked

def palt3 {α : Type} (p q r : P α) : P α := palt p (palt q r)

def pchar (c : Char) : P Char := fun s =>
  match s.text with
  | [] => .err
  | x :: _ => if x = c then .ok (s.take 1) c else .err

def ptag (t : String) : P String := fun s =>
  if s.text.take t.length = t.data then .ok (s.take t.length) t else .err

/-- nom `digit1`: one or more ASCII digits, returning the lexeme. -/
def digit1 : P String := fun s =>
  let ds := s.text.takeWhile Char.isDigit
  if ds.isEmpty then .err else .ok (s.take ds.length) (String.mk ds)

/-- nom `take_till`: consume (possibly zero) characters until `pred` holds. -/
def take_till (pred : Char → Bool) : P String := fun s =>
  let ds := s.text.takeWhile (fun c => ! pred c)
  .ok (s.take ds.length) (String.mk ds)

/-- nom `take_till1`: like `take_till` but at least one character. -/
def take_till1 (pred : Char → Bool) : P String := fun s =>
  let ds := s.text.takeWhile (fun c => ! pred c)
  if ds.isEmpty then .err else .ok (s.take ds.length) (String.mk ds)

/-- nom `not`: succeeds, consuming nothing, iff the inner parser fails. -/
def pnot {α : Type} (p : P α) : P Unit := fun s =>
  match p s with
  | .ok _ _ => .err
  | .err => .ok s ()
  | .panicked => .panicked

/-- nom `opt`. -/
def popt {α : Type} (p : P α) : P (Option α) := fun s =>
  match p s with
  | .ok s' a => .ok s' (some a)
  | .err => .ok s none
  | .panicked => .panicked

def isSpaceChar (c : Char) : Bool :=
  c == ' ' || c == '\t' || c == '\r' || c == '\n'

def multispace0 : P Unit := fun s =>
  let ds := s.text.takeWhile isSpaceChar
  .ok (s.take ds.length) ()

def multispace1 : P Unit := fun s =>
  let ds := s.text.takeWhile isSpaceChar
  if ds.isEmpty then .err else .ok (s.take ds.length) ()

/-- nom `line_ending`: matches `"\n"` or `"\r\n"`. -/
def line_ending : P Unit := fun s =>
  match s.text with
  | '\n' :: _ => .ok (s.take 1) ()
  | '\r' :: '\n' :: _ => .ok (s.take 2) ()
  | _ => .err

def eofP : P Unit := fun s =>
  if s.text.isEmpty then .ok s () else .err

/-- One pass plus recursion of nom's `permutation` over three parsers:
repeatedly try the not-yet-succeeded parsers in declaration order; stop
once all three succeeded; fail when a full pass makes no progress. -/
def perm3Go {α β γ : Type} (p1 : P α) (p2 : P β) (p3 : P γ) :
    Nat → Option α → Option β → Option γ → Span → PResult (α × β × γ)
  | 0, _, _, _, _ => .err
  | Nat.succ fuel, r1, r2, r3, s =>
    match r1, r2, r3 with
    | some a, some b, some c => .ok s (a, b, c)
    | _, _, _ =>
      match r1 with
      | none =>
        match p1 s with
        | .ok s' a => perm3Go p1 p2 p3 fuel (some a) r2 r3 s'
        | .panicked => .panicked
        | .err =>
          match r2 with
          | none =>
            match p2 s with
            | .ok s' b => perm3Go p1 p2 p3 fuel r1 (some b) r3 s'
            | .panicked => .panicked
            | .err =>
              match r3 with
              | none =>
                match p3 s with
                | .ok s' c => perm3Go p1 p2 p3 fuel r1 r2 (some c) s'
                | .panicked => .panicked
                | .err => .err
              | some _ => .err
          | some _ =>
            match r3 with
            | none =>
              match p3 s with
              | .ok s' c => perm3Go p1 p2 p3 fuel r1 r2 (some c) s'
              | .panicked => .panicked
              | .err => .err
            | some _ => .err
      | some _ =>
        match r2 with
        | none =>
          match p2 s with
          | .ok s' b => perm3Go p1 p2 p3 fuel r1 (some b) r3 s'
          | .panicked => .panicked
          | .err =>
            match r3 with
            | none =>
              match p3 s with
              | .ok s' c => perm3Go p1 p2 p3 fuel r1 r2 (some c) s'
              | .panicked => .panicked
              | .err => .err
            | some _ => .err
        | some _ =>
          match r3 with
          | none =>
            match p3 s with
            | .ok s' c => perm3Go p1 p2 p3 fuel r1 r2 (some c) s'
            | .panicked => .panicked
            | .err => .err
          | some _ => .err

def perm3 {α β γ : Type} (p1 : P α) (p2 : P β) (p3 : P γ) : P (α × β × γ) :=
  fun s => perm3Go p1 p2 p3 4 none none none s

/-- nom `many0`, including its guard that errors out when the inner parser
succeeds without consuming input. -/
def many0Go {α : Type} (p : P α) : Nat → List α → Span → PResult (List α)
  | 0, _, _ => .err
  | Nat.succ fuel, acc, s =>
    match p s with
    | .ok s' a =>
      if s'.text.length = s.text.length then .err
      else many0Go p fuel (acc ++ [a]) s'
    | .err => .ok s acc
    | .panicked => .panicked

def many0 {α : Type} (p : P α) : P (List α) := fun s =>
  many0Go p (s.text.length + 1) [] s

/-- nom `separated_list0`: when an element after a separator fails, both
are rolled back and the list ends. -/
def sepList0Go {α β : Type} (sep : P β) (p : P α) :
    Nat → List α → Span → PResult (List α)
  | 0, _, _ => .err
  | Nat.succ fuel, acc, s =>
    match sep s with
    | .panicked => .panicked
    | .err => .ok s acc
    | .ok s1 _ =>
      match p s1 with
      | .panicked => .panicked
      | .err => .ok s acc
      | .ok s2 a =>
        if s2.text.length = s.text.length then .err
        else sepList0Go sep p fuel (acc ++ [a]) s2

def separated_list0 {α β : Type} (sep : P β) (p : P α) : P (List α) := fun s =>
  match p s with
  | .panicked => .panicked
  | .err => .ok s []
  | .ok s1 a => sepList0Go sep p (s.text.length + 1) [a] s1

def delimited {α β γ : Type} (l : P α) (p : P β) (r : P γ) : P β := fun s =>
  match l s with
  | .panicked => .panicked
  | .err => .err
  | .ok s1 _ =>
    match p s1 with
    | .panicked => .panicked
    | .err => .err
    | .ok s2 b =>
      match r s2 with
      | .panicked => .panicked
      | .err => .err
      | .ok s3 _ => .ok s3 b

def ppair {α β : Type} (p : P α) (q : P β) : P (α × β) := fun s =>
  match p s with
  | .panicked => .panicked
  | .err => .err
  | .ok s1 a =>
    match q s1 with
    | .panicked => .panicked
    | .err => .err
    | .ok s2 b => .ok s2 (a, b)

/-- The `comment` of `src/parser.rs`: `//` up to (and including) the line end. -/
def comment : P Unit :=
  pmap (fun _ => ())
    (perm3 (ptag "//") (take_till (fun c => c == '\r' || c == '\n'))
      (palt line_ending eofP))

/-- The `skip0` of `src/parser.rs`: any run of comments and whitespace. -/
def skip0 : P Unit := pmap (fun _ => ()) (many0 (palt comment multispace1))

/-- The `located` combinator of `src/parser.rs`: skip leading trivia,
record the start position, run the parser, record the end position. -/
def located {α : Type} (p : P α) : P (Located α) := fun input =>
  match skip0 input with
  | .panicked => .panicked
  | .err => .err
  | .ok s _ =>
    match p s with
    | .panicked => .panicked
    | .err => .err
    | .ok s' a =>
      .ok s'
        { range :=
            { from_ := ⟨s.line, s.col⟩
              to_ := ⟨s'.line, s'.col⟩
              fragment := String.mk (s.text.take (s.text.length - s'.text.length)) }
          value := a }

/-- The `Expression` AST built by `src/parser.rs` (`IntValue`,
`VariableRef`, `BinaryExpr`, `CallExpr`), boxes flattened. -/
inductive Expression where
  | IntValue (value : Int)
  | VariableRef (name : String)
  | BinaryExpr (op : BinaryOp) (lhs rhs : Expression)
  | CallExpr (name : String) (args : List Expression)

def digitsToNat (cs : List Char) : Nat :=
  cs.foldl (fun acc c => acc * 10 + (c.toNat - '0'.toNat)) 0

/-- Rust's `str::parse::<i32>()` on an all-digit lexeme: succeeds exactly
when the value fits in `i32`. -/
def parseI32 (s : String) : Option Int :=
  if digitsToNat s.data ≤ 2147483647 then some (Int.ofNat (digitsToNat s.data))
  else none

/-- The `parse_number_literal` of `src/parser.rs`: `digit1` mapped through an
`i32` conversion whose `unwrap` panics when the value does not fit. -/
def parse_number_literal : P (Located Expression) :=
  located (pmapPanic (fun lex => (parseI32 lex).map Expression.IntValue) digit1)

/-- The `parse_identifier` of `src/parser.rs`. -/
def parse_identifier : P String := fun s =>
  match pnot digit1 s with
  | .panicked => .panicked
  | .err => .err
  | .ok s1 _ =>
    take_till1 (fun x => !(x.isAlpha || x.isDigit || x == '-' || x == '_')) s1

/-- The `parse_variable_ref` of `src/parser.rs`. -/
def parse_variable_ref : P (Located Expression) :=
  located (pmap Expression.VariableRef parse_identifier)

/-- The `fold_binexp` of `src/parser.rs`, the fold combining the first operand
with the parsed (operator, operand) list. -/
def fold_binexp (first : Expression) (rest : List (BinaryOp × Expression)) :
    Expression :=
  match rest with
  | [] => first
  | (binop, second) :: tail =>
    match tail with
    | [] => .BinaryExpr binop first second
    | _ :: _ => .BinaryExpr binop first (fold_binexp second tail)

def lparen : P Char := pchar '('
def rparen : P Char := pchar ')'
def commaP : P Char := pchar ','

mutual

/-- The `parse_primary_expression` of `src/parser.rs`. -/
def parse_primary_expression : Nat → P (Located Expression)
  | 0 => fun _ => .err
  | Nat.succ fuel => fun input =>
    match skip0 input with
    | .panicked => .panicked
    | .err => .err
    | .ok s _ =>
      palt3 parse_number_literal
        (delimited lparen (parse_expression fuel) rparen)
        parse_variable_ref s

/-- The `parse_function_call_expression` of `src/parser.rs`. -/
def parse_function_call_expression : Nat → P (Located Expression)
  | 0 => fun _ => .err
  | Nat.succ fuel =>
    located
      (pmap (fun (p : String × List Expression) => Expression.CallExpr p.1 p.2)
        (ppair parse_identifier
          (delimited lparen
            (separated_list0 commaP
              (pmap Located.value (parse_expression fuel)))
            rparen)))

/-- The `parse_postfix_expression` of `src/parser.rs`. -/
def parse_postfix_expression : Nat → P (Located Expression)
  | 0 => fun _ => .err
  | Nat.succ fuel =>
    palt (parse_primary_expression fuel) (parse_function_call_expression fuel)

/-- The `parse_multiplicative_expression` of `src/parser.rs`. -/
def parse_multiplicative_expression : Nat → P Expression
  | 0 => fun _ => .err
  | Nat.succ fuel => fun input =>
    match skip0 input with
    | .panicked => .panicked
    | .err => .err
    | .ok s _ =>
      match parse_postfix_expression fuel s with
      | .panicked => .panicked
      | .err => .err
      | .ok s1 lhs =>
        match
          many0
            (pmap
              (fun (t : Char × Unit × Located Expression) =>
                (if t.1 = '*' then BinaryOp.Mul else BinaryOp.Div,
                  t.2.2.value))
              (perm3 (palt (pchar '*') (pchar '/')) multispace0
                (parse_postfix_expression fuel))) s1
        with
        | .panicked => .panicked
        | .err => .err
        | .ok s2 rhss => .ok s2 (fold_binexp lhs.value rhss)

/-- The inner `parse_additive_expression_impl` of `src/parser.rs`.  Note
that — as in the source — the operand to the right of a `+`/`-` is a
*postfix* expression, not a multiplicative one. -/
def parse_additive_expression_impl : Nat → P Expression
  | 0 => fun _ => .err
  | Nat.succ fuel => fun input =>
    match skip0 input with
    | .panicked => .panicked
    | .err => .err
    | .ok s _ =>
      match parse_multiplicative_expression fuel s with
      | .panicked => .panicked
      | .err => .err
      | .ok s1 lhs =>
        match
          many0
            (pmap
              (fun (t : Char × Unit × Located Expression) =>
                (if t.1 = '+' then BinaryOp.Add else BinaryOp.Sub,
                  t.2.2.value))
              (perm3 (palt (pchar '+') (pchar '-')) multispace0
                (parse_postfix_expression fuel))) s1
        with
        | .panicked => .panicked
        | .err => .err
        | .ok s2 rhss => .ok s2 (fold_binexp lhs rhss)

/-- The `parse_additive_expression` of `src/parser.rs`. -/
def parse_additive_expression : Nat → P (Located Expression)
  | 0 => fun _ => .err
  | Nat.succ fuel => located (parse_additive_expression_impl fuel)

/-- The `parse_expression` of `src/parser.rs`: a call, else an additive
expression (the `context` wrapper only labels errors). -/
def parse_expression : Nat → P (Located Expression)
  | 0 => fun _ => .err
  | Nat.succ fuel =>
    palt (parse_function_call_expression fuel) (parse_additive_expression fuel)

end

/-- Run the expression parser on a string, returning the parsed tree and
the unconsumed suffix. -/
def runExpression (input : String) : Option (Expression × String) :=
  match parse_expression 30 (Span.ofString input) with
  | .ok s l => some (l.value, String.mk s.text)
  | _ => none

end OldParser

namespace Resolver

/-- The `ResolvedType` as used by the resolver and the builder
(`src/builder/expression.rs` matches exactly these nine variants). -/
inductive ResolvedType where
  | U8
  | U32
  | U64
  | I32
  | I64
  | USize
  | Void
  | Unknown
  | Ptr (inner : ResolvedType)
deriving Repr, DecidableEq

/-- Modelled from the spec: `is_integer_type` (from the `resolved_ast`
module, which is not among the sources).  §4.2 lists the integer types as
`u8`, `u32`, `u64`, `i32`, `i64`, `usize`. -/
def ResolvedType.is_integer_type : ResolvedType → Bool
  | .U8 | .U32 | .U64 | .I32 | .I64 | .USize => true
  | _ => false

/-- Bit width of an integer type on the 64-bit target
(`PointerSize::SixteenFour`). -/
def ResolvedType.width : ResolvedType → Nat
  | .U8 => 8
  | .U32 => 32
  | .U64 => 64
  | .I32 => 32
  | .I64 => 64
  | .USize => 64
  | _ => 0

def ResolvedType.isUnsigned : ResolvedType → Bool
  | .U8 | .U32 | .U64 | .USize => true
  | _ => false

def ResolvedType.isSigned : ResolvedType → Bool
  | .I32 | .I64 => true
  | _ => false

/-- Largest value of an integer type (Rust `parse` succeeds exactly up to
this bound for the all-digit literals produced by the grammar). -/
def ResolvedType.maxValue : ResolvedType → Nat
  | .U8 => 255
  | .U32 => 4294967295
  | .U64 => 18446744073709551615
  | .I32 => 2147483647
  | .I64 => 9223372036854775807
  | .USize => 18446744073709551615
  | _ => 0

/-- Modelled from the spec: `get_cast_type` (its source is not among the
files).  §4.2: implicit coercion is only among integer types and only
widening without sign change; `USize` is compatible with the same-width
unsigned integer; the function returns, for each side, the type to widen
to so both sides meet at the smallest common integer type, and `none`
when no cast is needed. -/
def get_cast_type (lhs rhs : ResolvedType) :
    Option ResolvedType × Option ResolvedType :=
  if lhs = rhs then (none, none)
  else if (lhs.isUnsigned ∧ rhs.isUnsigned) ∨ (lhs.isSigned ∧ rhs.isSigned) then
    if lhs.width < rhs.width then (some rhs, none)
    else if rhs.width < lhs.width then (none, some lhs)
    else (none, none)
  else (none, none)

/-- The `ContextType` of `src/resolver/error.rs`. -/
inductive ContextType where
  | VariableRefExpression
  | CallExpression
  | NumberLiteralExpression
  | BinaryExpression
  | IntrinsicExpression
  | AsignStatement
  | ReturnStatement
  | DiscardedExpressionStatement
  | VariableDeclStatement
  | Function
deriving Repr, DecidableEq

/-- The `CompileErrorKind` of `src/resolver/error.rs`. -/
inductive CompileErrorKind where
  | Context (ctx : ContextType)
  | VariableNotFound (name : String)
  | FunctionNotFound (name : String)
  | IsNotFunction (name : String)
  | IsNotType (name : String)
  | IsNotVariable (name : String)
  | InvalidOperand (s : String)
  | InvalidArgument
  | TypeMismatch (expected actual : String)
  | CannotDeref (name : String) (deref_count : Nat)
  | CannotIndexAccess (name : String) (ty : String)
  | InvalidArrayIndex
  | TypeNotFound (name : String)
  | TooManyGenericArgs (fn_name : String) (expected actual : Nat)
  | TooFewGenericArgs (fn_name : String) (expected actual : Nat)
deriving Repr, DecidableEq

/-- The `CompileError` of `src/resolver/error.rs`: a stack of error kinds. -/
structure CompileError where
  errors : List CompileErrorKind
deriving Repr, DecidableEq

/-- The `CompileError::from_error_kind`. -/
def CompileError.from_error_kind (kind : CompileErrorKind) : CompileError :=
  ⟨[kind]⟩

/-- The `CompileError::append` of `src/resolver/error.rs`: pushes `kind` onto
the other error's `errors` vector (at the end). -/
def CompileError.append (kind : CompileErrorKind) (other : CompileError) :
    CompileError :=
  ⟨other.errors ++ [kind]⟩

/-- The AST expression fragment resolved by the resolver
(`src/ast.rs`, `Expression`); `Located` wrappers are dropped since no
claim inspects ranges, and `Call` is omitted because function resolution
and monomorphization are not among the sources and no claim concerns
them. -/
inductive Expression where
  | NumberLiteral (value : String)
  | StringLiteral (value : String)
  | VariableRef (name : String)
  | BinaryExpr (op : BinaryOp) (lhs rhs : Expression)
  | DerefExpr (target : Expression)
  | IndexAccess (target index : Expression)
deriving Repr, DecidableEq

/-- The `AssignExpr` of the resolver (fields as used by
`src/resolver/expression/assignment.rs`: `name`, `deref_count`,
`index_access`, `value`). -/
structure AssignExpr where
  name : String
  deref_count : Nat
  index_access : Option Expression
  value : Expression
deriving Repr, DecidableEq

mutual
/-- The resolved IR of the resolver commit (`resolved_ast`): an
expression is a kind paired with a `ResolvedType`; kinds mirror the AST
plus the explicit `Assignment` form built by `resolve_assignment`. -/
inductive ResolvedExpression where
  | mk (ty : ResolvedType) (kind : ExpressionKind)

inductive ExpressionKind where
  | NumberLiteral (value : String)
  | StringLiteral (value : String)
  | VariableRef (name : String)
  | BinaryExpr (op : BinaryOp) (lhs rhs : ResolvedExpression)
  | Deref (target : ResolvedExpression)
  | IndexAccess (target index : ResolvedExpression)
  | Assignment (a : ResolvedAssignment)

inductive ResolvedAssignment where
  | mk (name : String) (value : ResolvedExpression) (deref_count : Nat)
      (index_access : Option ResolvedExpression)
end

def ResolvedExpression.ty : ResolvedExpression → ResolvedType
  | .mk t _ => t

def ResolvedExpression.kind : ResolvedExpression → ExpressionKind
  | .mk _ k => k

/-- The variable-scope stack: a stack of maps `name → ResolvedType`;
the innermost scope is the last-pushed (rightmost) entry. -/
def VariableScopes : Type := List (List (String × ResolvedType))

def scopeGet (sc : List (String × ResolvedType)) (name : String) :
    Option ResolvedType :=
  (sc.find? (fun p => p.1 = name)).map (fun p => p.2)

/-- Innermost-first lookup over the scope stack. -/
def lookupVar : VariableScopes → String → Option ResolvedType
  | [], _ => none
  | scs, name =>
    match scs.reverse.find? (fun sc => (scopeGet sc name).isSome) with
    | some sc => scopeGet sc name
    | none => none

/-- Modelled from the spec: `resolve_expression` (its source,
`src/resolver/expression/mod.rs`, is not among the files; only its calls
from `resolve_assignment` are).  §4.2's table: a number literal adopts an
integer annotation and otherwise defaults to `i32`, and is in error when
the literal does not fit the type; a string literal has type `Ptr(U8)`;
a variable reference is looked up innermost-first, yielding
`VariableNotFound` when absent; binary operands are resolved without
annotation and meet at the common type of `get_cast_type`, with pointer
`+`/`-` against an integer preserving the pointer type; `*e` requires a
pointer and unwraps it; `e[i]` requires a pointer, resolves `i` under a
`USize` annotation and unwraps the pointer.  Recoverable errors are
accumulated in the returned list and the placeholder type `Unknown` is
used for the failed node. -/
def resolve_expression (scopes : VariableScopes) :
    Expression → Option ResolvedType →
    List CompileErrorKind × ResolvedExpression
  | .NumberLiteral v, annotation =>
    let ty : ResolvedType :=
      match annotation with
      | some t => if t.is_integer_type then t else .I32
      | none => .I32
    if (v.data.all Char.isDigit ∧ ¬ v.data.isEmpty) ∧
        OldParser.digitsToNat v.data ≤ ty.maxValue then
      ([], .mk ty (.NumberLiteral v))
    else
      ([.TypeMismatch (toString (repr ty)) v], .mk .Unknown (.NumberLiteral v))
  | .StringLiteral v, _ => ([], .mk (.Ptr .U8) (.StringLiteral v))
  | .VariableRef name, _ =>
    match lookupVar scopes name with
    | some t => ([], .mk t (.VariableRef name))
    | none => ([.VariableNotFound name], .mk .Unknown (.VariableRef name))
  | .BinaryExpr op lhs rhs, _ =>
    let (el, l) := resolve_expression scopes lhs none
    let (er, r) := resolve_expression scopes rhs none
    match l.ty, r.ty with
    | .Ptr t, rt =>
      if rt.is_integer_type ∧ (op = .Add ∨ op = .Sub) then
        (el ++ er, .mk (.Ptr t) (.BinaryExpr op l r))
      else
        (el ++ er ++ [.InvalidOperand "pointer arithmetic"],
          .mk .Unknown (.BinaryExpr op l r))
    | lt, .Ptr t =>
      if lt.is_integer_type ∧ (op = .Add ∨ op = .Sub) then
        (el ++ er, .mk (.Ptr t) (.BinaryExpr op l r))
      else
        (el ++ er ++ [.InvalidOperand "pointer arithmetic"],
          .mk .Unknown (.BinaryExpr op l r))
    | lt, rt =>
      if lt.is_integer_type ∧ rt.is_integer_type ∧
          (lt.isUnsigned = rt.isUnsigned) then
        let common :=
          match get_cast_type lt rt with
          | (some t, _) => t
          | (none, some t) => t
          | (none, none) => lt
        (el ++ er, .mk common (.BinaryExpr op l r))
      else
        (el ++ er ++ [.InvalidOperand "operand types"],
          .mk .Unknown (.BinaryExpr op l r))
  | .DerefExpr target, _ =>
    let (et, t) := resolve_expression scopes target none
    match t.ty with
    | .Ptr inner => (et, .mk inner (.Deref t))
    | _ => (et ++ [.CannotDeref "" 1], .mk .Unknown (.Deref t))
  | .IndexAccess target index, _ =>
    let (et, t) := resolve_expression scopes target none
    let (ei, i) := resolve_expression scopes index (some .USize)
    match t.ty with
    | .Ptr inner => (et ++ ei, .mk inner (.IndexAccess t i))
    | other =>
      (et ++ ei ++ [.CannotIndexAccess "" (toString (repr other))],
        .mk .Unknown (.IndexAccess t i))

/-- The `resolve_assignment` of `src/resolver/expression/assignment.rs`: the
right-hand side is resolved with annotation `None`, the optional index
expression is resolved with annotation `Some(USize)`, and the resulting
expression has type `Void` and an `Assignment` kind (the error
accumulator and the type/function tables, unused by this fragment, are
folded into the returned error list). -/
def resolve_assignment (scopes : VariableScopes) (assignment_expr : AssignExpr) :
    List CompileErrorKind × ResolvedExpression :=
  let resolved := resolve_expression scopes assignment_expr.value none
  let idx :=
    assignment_expr.index_access.map
      (fun x => resolve_expression scopes x (some .USize))
  (resolved.1 ++ (match idx with | some p => p.1 | none => []),
    .mk .Void
      (.Assignment
        (.mk assignment_expr.name resolved.2 assignment_expr.deref_count
          (idx.map (fun p => p.2)))))

/-- The assignment target's post-deref, post-index type, following the
spec's words (§4.2: "RHS resolved with the target's post-deref,
post-index type as annotation"): the target's type with
`deref_count` pointer layers unwrapped, then one more when an index
access is present. -/
def derefNTimes : Nat → ResolvedType → Option ResolvedType
  | 0, t => some t
  | Nat.succ n, .Ptr inner => derefNTimes n inner
  | Nat.succ _, _ => none

def postDerefIndexType (scopes : VariableScopes) (a : AssignExpr) :
    Option ResolvedType :=
  match lookupVar scopes a.name with
  | none => none
  | some t =>
    match derefNTimes a.deref_count t with
    | none => none
    | some t' =>
      match a.index_access with
      | none => some t'
      | some _ =>
        match t' with
        | .Ptr inner => some inner
        | _ => none

/-- The `resolve_assignment` as the spec's words describe it (for comparison
with the source definition above): identical except that the right-hand
side is resolved under the target's post-deref, post-index type. -/
def resolve_assignment_specversion (scopes : VariableScopes)
    (assignment_expr : AssignExpr) :
    List CompileErrorKind × ResolvedExpression :=
  let resolved :=
    resolve_expression scopes assignment_expr.value
      (postDerefIndexType scopes assignment_expr)
  let idx :=
    assignment_expr.index_access.map
      (fun x => resolve_expression scopes x (some .USize))
  (resolved.1 ++ (match idx with | some p => p.1 | none => []),
    .mk .Void
      (.Assignment
        (.mk assignment_expr.name resolved.2 assignment_expr.deref_count
          (idx.map (fun p => p.2)))))

/-- The type of the resolved right-hand side stored inside an
`Assignment` result. -/
def assignedValueTy (e : ResolvedExpression) : Option ResolvedType :=
  match e.kind with
  | .Assignment (.mk _ v _ _) => some v.ty
  | _ => none

/-- The resolved index expression stored inside an `Assignment` result. -/
def assignedIndex (e : ResolvedExpression) :
    Option (Option ResolvedExpression) :=
  match e.kind with
  | .Assignment (.mk _ _ _ ix) => some ix
  | _ => none

end Resolver

namespace CodegenOld

/-- The `ast::Type` of the commit of `src/llvm_codegen/mod.rs` (the variants
matched by `get_variable`). -/
inductive Ty where
  | I32
  | U8
  | U32
  | U64
  | USize
  | Void
  | Ptr (inner : Ty)
deriving Repr, DecidableEq

/-- The `Value` of `src/llvm_codegen` (the variants built by `get_variable`);
the payload abstracts the loaded LLVM value by the stack slot it was
loaded from. -/
inductive Value where
  | I32Value (v : Nat)
  | U8Value (v : Nat)
  | U32Value (v : Nat)
  | U64Value (v : Nat)
  | USizeValue (v : Nat)
  | PointerValue (v : Nat)
  | Void
deriving Repr, DecidableEq

/-- The `CompileError` of `src/llvm_codegen/mod.rs`. -/
inductive CompileError where
  | VariableNotFound (name : String)
  | FunctionNotFound (name : String)
  | CallNotFunctionValue (name : String)
  | InvalidOperand
  | InvalidArgument
  | AsignValueDoesNotMatch (expected actual : Ty)
deriving Repr, DecidableEq

/-- One scope: a map `name → (type, stack slot)`; pushed scopes sit at
the end of the scope stack. -/
def Scope : Type := List (String × Ty × Nat)

def scopeGet (sc : Scope) (name : String) : Option (Ty × Nat) :=
  (sc.find? (fun p => p.1 = name)).map (fun p => p.2)

/-- The `match *ty` arm of `get_variable`: wrap the value loaded from the
slot in the `Value` variant chosen by the variable's type. -/
def mkValue (ty : Ty) (ptr : Nat) : Value :=
  match ty with
  | .I32 => .I32Value ptr
  | .U8 => .U8Value ptr
  | .U32 => .U32Value ptr
  | .U64 => .U64Value ptr
  | .USize => .USizeValue ptr
  | .Ptr _ => .PointerValue ptr
  | .Void => .Void

/-- The `for scope in scopes.iter().rev()` loop of `get_variable`. -/
def getVariableGo : List Scope → String → Except CompileError Value
  | [], name => .error (.VariableNotFound name)
  | sc :: rest, name =>
    match scopeGet sc name with
    | some (ty, ptr) => .ok (mkValue ty ptr)
    | none => getVariableGo rest name

/-- The `get_variable` of `src/llvm_codegen/mod.rs`: scan the scope stack
from the innermost (last-pushed) scope outwards; the first scope binding
the name wins; a miss in every scope is `VariableNotFound`. -/
def get_variable (scopes : List Scope) (name : String) :
    Except CompileError Value :=
  getVariableGo scopes.reverse name

end CodegenOld

namespace Builder

open Resolver (ResolvedType)

/-- SSA values of the builder model: integer constants (from
`const_int`) and opaque instruction results. -/
inductive Value where
  | intConst (ty : ResolvedType) (n : Nat)
  | reg (id : Nat)
deriving Repr, DecidableEq

/-- Instructions appended by the embedded fragment of
`src/builder/expression.rs` and `src/builder/statement.rs`. -/
inductive Instr where
  | addInstr (l r : Value)
  | loadVar (name : String)
  | gep (ptr index : Value)
  | load (ptr : Value)
  | castInstr (v : Value) (ty : ResolvedType)
  | globalString (s : String)
  | alloca
  | store (ptr v : Value)
  | ret (v : Option Value)
deriving Repr, DecidableEq

/-- The builder: the list of instructions emitted so far plus a fresh
SSA-name counter. -/
structure BuilderState where
  instrs : List Instr
  fresh : Nat
deriving Repr, DecidableEq

/-- Emit a value-producing instruction. -/
def emitV (st : BuilderState) (i : Instr) : BuilderState × Value :=
  (⟨st.instrs ++ [i], st.fresh + 1⟩, .reg st.fresh)

/-- Emit an instruction whose result is not used as an SSA value. -/
def emitI (st : BuilderState) (i : Instr) : BuilderState :=
  ⟨st.instrs ++ [i], st.fresh⟩

mutual
/-- The resolved IR consumed by `src/builder/expression.rs`
(`resolved_ast`): the kinds its `gen_expression` matches, minus
`CallExpr`, whose lowering (`gen_or_get_function`) is not among the
sources and which no claim concerns. -/
inductive ResolvedExpression where
  | mk (ty : ResolvedType) (kind : ExpressionKind)

inductive ExpressionKind where
  | NumberLiteral (value : String)
  | VariableRef (name : String)
  | IndexAccess (target index : ResolvedExpression)
  | Deref (target : ResolvedExpression)
  | BinaryExpr (op : BinaryOp) (lhs rhs : ResolvedExpression)
  | StringLiteral (value : String)
end

def ResolvedExpression.ty : ResolvedExpression → ResolvedType
  | .mk t _ => t

def ResolvedExpression.kind : ResolvedExpression → ExpressionKind
  | .mk _ k => k

/-- Rust `str::parse` at the width demanded by the type, as performed by
`eval_u8` … `eval_usize`: succeeds exactly when the lexeme is all digits
and its value fits; `none` is the panicking `unwrap` (and the
`unreachable!()` arms for `Ptr`/`Void`/`Unknown`). -/
def parseForType (ty : ResolvedType) (s : String) : Option Nat :=
  if ty.is_integer_type ∧ (s.data.all Char.isDigit ∧ ¬ s.data.isEmpty) ∧
      OldParser.digitsToNat s.data ≤ ty.maxValue then
    some (OldParser.digitsToNat s.data)
  else none

/-- The `eval_number_literal` of `src/builder/expression.rs`: dispatch on the
resolved type, parse the lexeme at that width (panicking `unwrap` on
failure) and build the constant. -/
def eval_number_literal (value : String) (ty : ResolvedType) : Option Value :=
  (parseForType ty value).map (fun n => .intConst ty n)

/-- Modelled from the spec: `gen_try_cast` (its source is not among the
files); a widening integer cast lowers to a single cast instruction
producing a fresh value. -/
def gen_try_cast (st : BuilderState) (v : Value) (ty : ResolvedType) :
    BuilderState × Value :=
  emitV st (.castInstr v ty)

/-- The `gen_expression` of `src/builder/expression.rs`.  The result is
`none` when a panic (`unwrap`/`unimplemented!`) is reached; otherwise the
new builder state plus the optional SSA value (`Option<BasicValueEnum>`
in the source).  The body of `eval_binary_expr` is inlined in the
`BinaryExpr` arm so that the recursion is structural; the standalone
`eval_binary_expr` below is definitionally equal to that arm. -/
def gen_expression (st : BuilderState) (e : ResolvedExpression) :
    Option (BuilderState × Option Value) :=
  match e with
  | .mk ty kind =>
    match kind with
    | .NumberLiteral v =>
      (eval_number_literal v ty).map (fun val => (st, some val))
    | .VariableRef name =>
      let (st1, v) := emitV st (.loadVar name)
      some (st1, some v)
    | .IndexAccess target index =>
      match gen_expression st target with
      | none => none
      | some (st1, tv) =>
        match tv with
        | none => none
        | some ptr =>
          match gen_expression st1 index with
          | none => none
          | some (st2, iv) =>
            match iv with
            | none => none
            | some idx =>
              let (st3, p) := emitV st2 (.gep ptr idx)
              let (st4, v) := emitV st3 (.load p)
              some (st4, some v)
    | .Deref target =>
      match gen_expression st target with
      | none => none
      | some (st1, tv) =>
        match tv with
        | none => none
        | some ptr =>
          let (st2, v) := emitV st1 (.load ptr)
          some (st2, some v)
    | .BinaryExpr op lhs rhs =>
      match gen_expression st lhs with
      | none => none
      | some (st1, lv) =>
        match lv with
        | none => none
        | some left0 =>
          match gen_expression st1 rhs with
          | none => none
          | some (st2, rv) =>
            match rv with
            | none => none
            | some right0 =>
              let casts := Resolver.get_cast_type lhs.ty rhs.ty
              let s3 :=
                match casts.1 with
                | some t =>
                  let (st3, l) := gen_try_cast st2 left0 t
                  (st3, l, t)
                | none => (st2, left0, ResolvedType.I32)
              let s4 :=
                match casts.2 with
                | some t =>
                  let (st4, r) := gen_try_cast s3.1 right0 t
                  (st4, r, t)
                | none => (s3.1, right0, s3.2.2)
              match op with
              | .Add =>
                if (s4.2.2).is_integer_type then
                  let (st5, v) := emitV s4.1 (.addInstr s3.2.1 s4.2.1)
                  some (st5, some v)
                else none
              | _ => none
    | .StringLiteral s =>
      let (st1, v) := emitV st (.globalString s)
      some (st1, some v)

/-- The `eval_binary_expr` of `src/builder/expression.rs`: evaluate both
operands (unwrapping the optional values), apply the casts demanded by
`get_cast_type`, then match on the operator — only `Add` on an integer
result type is implemented; every other arm is `unimplemented!()`
(modelled by `none`). -/
def eval_binary_expr (st : BuilderState) (op : BinaryOp)
    (lhs rhs : ResolvedExpression) : Option (BuilderState × Option Value) :=
  match gen_expression st lhs with
  | none => none
  | some (st1, lv) =>
    match lv with
    | none => none
    | some left0 =>
      match gen_expression st1 rhs with
      | none => none
      | some (st2, rv) =>
        match rv with
        | none => none
        | some right0 =>
          let casts := Resolver.get_cast_type lhs.ty rhs.ty
          let s3 :=
            match casts.1 with
            | some t =>
              let (st3, l) := gen_try_cast st2 left0 t
              (st3, l, t)
            | none => (st2, left0, ResolvedType.I32)
          let s4 :=
            match casts.2 with
            | some t =>
              let (st4, r) := gen_try_cast s3.1 right0 t
              (st4, r, t)
            | none => (s3.1, right0, s3.2.2)
          match op with
          | .Add =>
            if (s4.2.2).is_integer_type then
              let (st5, v) := emitV s4.1 (.addInstr s3.2.1 s4.2.1)
              some (st5, some v)
            else none
          | _ => none

/-- The `Return` of the builder commit's IR (`concrete_ast::Return`): an
optional expression. -/
structure Return where
  expression : Option ResolvedExpression

/-- The `gen_return` of `src/builder/statement.rs`: with an expression,
evaluate it (unwrapping the optional value), allocate a slot, store the
value (the embedded `Value` type has no struct values, so the `memcpy`
branch is dead) and emit `ret` carrying the evaluated value; without an
expression, emit `ret void` and evaluate nothing.  `none` models a
panic. -/
def gen_return (st : BuilderState) (ret : Return) : Option BuilderState :=
  match ret.expression with
  | some expression =>
    match gen_expression st expression with
    | none => none
    | some (st1, v) =>
      match v with
      | none => none
      | some value =>
        let (st2, ptr) := emitV st1 .alloca
        let st3 := emitI st2 (.store ptr value)
        some (emitI st3 (.ret (some value)))
  | none => some (emitI st (.ret none))


end Builder

/-! ## Theorems -/

/-- C1: the claim says `a + b + c` parses to the left-nested tree
`Add(Add(a,b),c)`.  Evaluating the embedded `parse_expression` at exactly
that input shows the code builds the right-nested tree `Add(a,Add(b,c))`
(`fold_binexp` recurses into the right child), and the two trees differ. -/
theorem parse_a_plus_b_plus_c_is_right_nested :
    OldParser.runExpression "a + b + c" =
      some (.BinaryExpr .Add (.VariableRef "a")
        (.BinaryExpr .Add (.VariableRef "b") (.VariableRef "c")), "") ∧
    (OldParser.Expression.BinaryExpr .Add (.VariableRef "a")
        (.BinaryExpr .Add (.VariableRef "b") (.VariableRef "c")) ≠
      OldParser.Expression.BinaryExpr .Add
        (.BinaryExpr .Add (.VariableRef "a") (.VariableRef "b"))
        (.VariableRef "c")) := by
  refine ⟨rfl, ?_⟩
  intro h
  injection h with h1 h2 h3
  injection h2

/-- C2: the claim says the expression parser on `1 + 2 * 3` succeeds,
consumes the whole input and returns `Add(1, Mul(2,3))`.  Evaluating the
embedded `parse_expression` shows it returns `Add(1,2)` and leaves
`" * 3"` unconsumed (the operand right of `+` is parsed as a postfix
expression, not a multiplicative one). -/
theorem parse_one_plus_two_times_three_breaks_precedence :
    OldParser.runExpression "1 + 2 * 3" =
      some (.BinaryExpr .Add (.IntValue 1) (.IntValue 2), " * 3") ∧
    (" * 3" : String) ≠ "" := by
  exact ⟨rfl, by decide⟩

/-- C10: on the all-digit input `2147483648` (one past `i32::MAX`) the
number-literal production neither returns a located expression nor a
syntax error: the `i32` conversion fails and the `unwrap` panics. -/
theorem number_literal_panics_past_i32_max :
    OldParser.parse_number_literal (OldParser.Span.ofString "2147483648") =
      .panicked := by
  rfl

/-- C4 counterexample: the claim says that for every input of one or more
decimal digits the number-literal production returns an AST node carrying
the literal's lexeme as a string and assigns no numeric type.  In the
code the production converts the lexeme to `i32` at parse time: on
`9999999999` it returns no node at all (the conversion panics), and on
`41` the node carries the converted integer value `41`, not a lexeme
string. -/
theorem number_literal_is_converted_at_parse_time :
    OldParser.parse_number_literal (OldParser.Span.ofString "9999999999") =
      .panicked ∧
    OldParser.parse_number_literal (OldParser.Span.ofString "41") =
      .ok ⟨[], 1, 3⟩ ⟨⟨⟨1, 1⟩, ⟨1, 3⟩, "41"⟩, .IntValue 41⟩ := by
  exact ⟨rfl, rfl⟩

/-- C3 counterexample: for the assignment `x = 5` with `x : u64` in
scope (no deref, no index), the claim demands that the right-hand side be
resolved under the target's post-deref post-index type `U64`; the code
resolves it under the empty annotation, so the literal defaults to `I32`,
unlike the spec-following variant, which yields `U64`. -/
theorem assignment_rhs_not_annotated_counterexample :
    Resolver.assignedValueTy
        (Resolver.resolve_assignment [[("x", .U64)]]
          ⟨"x", 0, none, .NumberLiteral "5"⟩).2 = some .I32 ∧
    Resolver.assignedValueTy
        (Resolver.resolve_assignment_specversion [[("x", .U64)]]
          ⟨"x", 0, none, .NumberLiteral "5"⟩).2 = some .U64 ∧
    (Resolver.ResolvedType.I32 ≠ Resolver.ResolvedType.U64) := by
  exact ⟨rfl, rfl, by decide⟩

/-- C3 amended: the resolver resolves an assignment's right-hand side
under the empty annotation, so a literal right-hand side defaults to
`I32` regardless of the target's declared type. -/
theorem assignment_rhs_defaults_to_i32 (name : String)
    (t : Resolver.ResolvedType) (s : String)
    (hdig : s.data.all Char.isDigit) (hne : ¬ s.data.isEmpty)
    (hfit : OldParser.digitsToNat s.data ≤ 2147483647) :
    Resolver.assignedValueTy
      (Resolver.resolve_assignment [[(name, t)]]
        ⟨name, 0, none, .NumberLiteral s⟩).2 = some .I32 := by
  simp [Resolver.resolve_assignment, Resolver.resolve_expression,
    Resolver.assignedValueTy, Resolver.ResolvedExpression.kind,
    Resolver.ResolvedExpression.ty, Resolver.ResolvedType.maxValue,
    hdig, hne, hfit]

/-- Witness for the C3 amended theorem at `x : u64`, `x = 5`. -/
theorem assignment_rhs_defaults_to_i32_witness :
    ("5".data.all Char.isDigit ∧ ¬ "5".data.isEmpty ∧
      OldParser.digitsToNat "5".data ≤ 2147483647) ∧
    Resolver.assignedValueTy
      (Resolver.resolve_assignment [[("x", .U64)]]
        ⟨"x", 0, none, .NumberLiteral "5"⟩).2 = some .I32 :=
  ⟨⟨by decide, by decide, by decide⟩,
    assignment_rhs_defaults_to_i32 "x" .U64 "5" (by decide) (by decide)
      (by decide)⟩

/-- C8: every assignment the resolver accepts becomes a
`ResolvedExpression` of type `Void`, and its optional index expression is
resolved under the `USize` annotation — for every scope stack and every
assignment, regardless of the types involved. -/
theorem assignment_has_type_void (scopes : Resolver.VariableScopes)
    (a : Resolver.AssignExpr) :
    (Resolver.resolve_assignment scopes a).2.ty = .Void ∧
    Resolver.assignedIndex (Resolver.resolve_assignment scopes a).2 =
      some (a.index_access.map
        (fun x => (Resolver.resolve_expression scopes x (some .USize)).2)) := by
  cases a with
  | mk n dc ix v =>
    cases ix <;>
      simp [Resolver.resolve_assignment, Resolver.assignedIndex,
        Resolver.ResolvedExpression.ty, Resolver.ResolvedExpression.kind]

/-- C9: wrapping a `CompileError` in a context frame appends exactly one
`Context(kind)` entry at the end of its error-kind list; the inner
diagnostic and every previously added frame are preserved in place. -/
theorem error_context_appends_one_frame (e : Resolver.CompileError)
    (k : Resolver.ContextType) :
    (Resolver.CompileError.append (.Context k) e).errors =
      e.errors ++ [.Context k] ∧
    (Resolver.CompileError.append (.Context k) e).errors.length =
      e.errors.length + 1 ∧
    ∀ i, i < e.errors.length →
      (Resolver.CompileError.append (.Context k) e).errors[i]? =
        e.errors[i]? := by
  refine ⟨rfl, by simp [Resolver.CompileError.append], ?_⟩
  intro i hi
  simp [Resolver.CompileError.append, List.getElem?_append, hi]

/-- Witness for C9 at a concrete inner error and frame. -/
theorem error_context_appends_one_frame_witness :
    (Resolver.CompileError.append (.Context .ReturnStatement)
        ⟨[.VariableNotFound "y"]⟩).errors =
      [.VariableNotFound "y", .Context .ReturnStatement] ∧
    (0 : Nat) < 1 ∧
    (Resolver.CompileError.append (.Context .ReturnStatement)
        ⟨[.VariableNotFound "y"]⟩).errors[0]? =
      [Resolver.CompileErrorKind.VariableNotFound "y"][0]? := by
  refine ⟨?_, by decide, ?_⟩
  · exact (error_context_appends_one_frame ⟨[.VariableNotFound "y"]⟩
      .ReturnStatement).1
  · exact (error_context_appends_one_frame ⟨[.VariableNotFound "y"]⟩
      .ReturnStatement).2.2 0 (by decide)

theorem getVariableGo_append_of_miss (name : String) :
    ∀ (l rest : List CodegenOld.Scope),
      (∀ sc ∈ l, CodegenOld.scopeGet sc name = none) →
      CodegenOld.getVariableGo (l ++ rest) name =
        CodegenOld.getVariableGo rest name := by
  intro l
  induction l with
  | nil => intro rest _; rfl
  | cons sc l ih =>
    intro rest h
    have hsc := h sc (List.mem_cons_self _ _)
    have htail := ih rest (fun sc' hm => h sc' (List.mem_cons_of_mem _ hm))
    simp [CodegenOld.getVariableGo, hsc, htail]

/-- C6: `get_variable` scans the scope stack innermost-first, so whenever
a name is bound in several scopes the innermost (last-pushed) binding is
the one returned, and a name bound in no scope yields
`VariableNotFound`. -/
theorem variable_lookup_innermost_wins (name : String) :
    (∀ (pre post : List CodegenOld.Scope) (sc : CodegenOld.Scope)
        (ty : CodegenOld.Ty) (ptr : Nat),
      CodegenOld.scopeGet sc name = some (ty, ptr) →
      (∀ sc' ∈ post, CodegenOld.scopeGet sc' name = none) →
      CodegenOld.get_variable (pre ++ sc :: post) name =
        .ok (CodegenOld.mkValue ty ptr)) ∧
    (∀ scopes : List CodegenOld.Scope,
      (∀ sc ∈ scopes, CodegenOld.scopeGet sc name = none) →
      CodegenOld.get_variable scopes name =
        .error (.VariableNotFound name)) := by
  constructor
  · intro pre post sc ty ptr hsc hmiss
    unfold CodegenOld.get_variable
    have hrev : (pre ++ sc :: post).reverse =
        post.reverse ++ sc :: pre.reverse := by
      simp [List.reverse_append]
    rw [hrev, getVariableGo_append_of_miss name post.reverse _
      (fun sc' hm => hmiss sc' (List.mem_reverse.mp hm))]
    simp [CodegenOld.getVariableGo, hsc]
  · intro scopes hmiss
    unfold CodegenOld.get_variable
    have h := getVariableGo_append_of_miss name scopes.reverse []
      (fun sc' hm => hmiss sc' (List.mem_reverse.mp hm))
    simpa using h

/-- Witness for C6: shadowing (`x` bound in both scopes, the inner `u8`
binding wins) and a lookup miss. -/
theorem variable_lookup_innermost_wins_witness :
    CodegenOld.scopeGet [("x", CodegenOld.Ty.U8, 1)] "x" = some (.U8, 1) ∧
    CodegenOld.get_variable [[("x", .I32, 0)], [("x", .U8, 1)]] "x" =
      .ok (CodegenOld.mkValue .U8 1) ∧
    CodegenOld.get_variable [[("x", .I32, 0)]] "y" =
      .error (.VariableNotFound "y") := by
  refine ⟨by decide, ?_, ?_⟩
  · exact (variable_lookup_innermost_wins "x").1 [[("x", .I32, 0)]] []
      [("x", .U8, 1)] .U8 1 (by decide) (by simp)
  · exact (variable_lookup_innermost_wins "y").2 [[("x", .I32, 0)]]
      (by intro sc h; rw [List.mem_singleton] at h; subst h; decide)

/-- C7: with an expression, `gen_return` evaluates it and ends the block
with a `ret` carrying exactly the evaluated value (after the interposed
alloca/store); with no expression it emits a single void `ret` and
evaluates nothing. -/
theorem return_lowering (st : Builder.BuilderState) :
    (∀ (e : Builder.ResolvedExpression) (st1 : Builder.BuilderState)
        (v : Builder.Value),
      Builder.gen_expression st e = some (st1, some v) →
      Builder.gen_return st ⟨some e⟩ =
        some ⟨st1.instrs ++ [.alloca, .store (.reg st1.fresh) v,
          .ret (some v)], st1.fresh + 1⟩) ∧
    Builder.gen_return st ⟨none⟩ =
      some ⟨st.instrs ++ [.ret none], st.fresh⟩ := by
  constructor
  · intro e st1 v h
    simp [Builder.gen_return, h, Builder.emitV, Builder.emitI]
  · rfl

/-- Witness for C7 at the literal `7 : i32`. -/
theorem return_lowering_witness :
    Builder.gen_expression ⟨[], 0⟩ (.mk .I32 (.NumberLiteral "7")) =
      some (⟨[], 0⟩, some (.intConst .I32 7)) ∧
    Builder.gen_return ⟨[], 0⟩ ⟨some (.mk .I32 (.NumberLiteral "7"))⟩ =
      some ⟨([] : List Builder.Instr) ++
        [.alloca, .store (.reg 0) (.intConst .I32 7),
          .ret (some (.intConst .I32 7))], 1⟩ := by
  refine ⟨rfl, ?_⟩
  exact (return_lowering ⟨[], 0⟩).1 (.mk .I32 (.NumberLiteral "7")) ⟨[], 0⟩
    (.intConst .I32 7) rfl

/-- C5 counterexample: `2 * 3` with both operands of integer type `I32`
is a resolved binary expression with operator `*`, yet code generation
reaches the `unimplemented!()` arm of `eval_binary_expr` and panics —
the panic branches are not unreachable. -/
theorem binary_codegen_panics_on_mul :
    Resolver.ResolvedType.I32.is_integer_type = true ∧
    Builder.gen_expression ⟨[], 0⟩
      (.mk .I32 (.BinaryExpr .Mul (.mk .I32 (.NumberLiteral "2"))
        (.mk .I32 (.NumberLiteral "3")))) = none := ⟨rfl, rfl⟩

theorem parseForType_integer {t : Resolver.ResolvedType} {s : String}
    {n : Nat} (h : Builder.parseForType t s = some n) :
    t.is_integer_type = true := by
  simp only [Builder.parseForType] at h
  split_ifs at h with hc
  exact hc.1

theorem get_cast_type_cases (a b : Resolver.ResolvedType) :
    ((Resolver.get_cast_type a b).1 = none ∨
      (Resolver.get_cast_type a b).1 = some b) ∧
    ((Resolver.get_cast_type a b).2 = none ∨
      (Resolver.get_cast_type a b).2 = some a) := by
  unfold Resolver.get_cast_type
  split_ifs <;> simp

/-- C5 amended: of the four operators, only `+` generates code: for `-`,
`*`, `/` the `unimplemented!()` arm is reached whatever the operands;
for `+` on number-literal operands whose lexemes fit their integer
types, generation succeeds and emits an integer `add` instruction. -/
theorem binary_codegen_add_only :
    (∀ (st : Builder.BuilderState) (op : BinaryOp)
        (lhs rhs : Builder.ResolvedExpression), op ≠ .Add →
      Builder.eval_binary_expr st op lhs rhs = none) ∧
    (∀ (st : Builder.BuilderState) (tl tr : Resolver.ResolvedType)
        (sl sr : String) (nl nr : Nat),
      Builder.parseForType tl sl = some nl →
      Builder.parseForType tr sr = some nr →
      ∃ st2 v, Builder.eval_binary_expr st .Add (.mk tl (.NumberLiteral sl))
          (.mk tr (.NumberLiteral sr)) = some (st2, some v) ∧
        ∃ pre a b, st2.instrs = pre ++ [Builder.Instr.addInstr a b]) := by
  constructor
  · intro st op lhs rhs hop
    unfold Builder.eval_binary_expr
    split
    · rfl
    · split
      · rfl
      · split
        · rfl
        · split
          · rfl
          · split
            · exact absurd rfl hop
            · rfl
  · intro st tl tr sl sr nl nr h1 h2
    have g1 : Builder.gen_expression st (.mk tl (.NumberLiteral sl)) =
        some (st, some (.intConst tl nl)) := by
      simp [Builder.gen_expression, Builder.eval_number_literal, h1]
    have g2 : Builder.gen_expression st (.mk tr (.NumberLiteral sr)) =
        some (st, some (.intConst tr nr)) := by
      simp [Builder.gen_expression, Builder.eval_number_literal, h2]
    have hti := parseForType_integer h1
    have htj := parseForType_integer h2
    unfold Builder.eval_binary_expr
    simp only [g1, g2, Builder.ResolvedExpression.ty]
    rcases (get_cast_type_cases tl tr).1 with hc1 | hc1 <;>
      rcases (get_cast_type_cases tl tr).2 with hc2 | hc2 <;>
        simp only [hc1, hc2, Builder.gen_try_cast, Builder.emitV,
          hti, htj, if_true] <;>
      exact ⟨_, _, ⟨rfl, _, _, _, rfl⟩⟩

/-- C4 amended: the number-literal production decides the type at parse
time: for every nonempty all-digit input whose value fits in `i32`, it
returns a located node carrying the lexeme converted to a 32-bit signed
integer (and, per the counterexample, panics when the value does not
fit). -/
theorem number_literal_i32_on_fitting_digits (s : String) (hne : s.data ≠ [])
    (hdig : ∀ x ∈ s.data, x.isDigit = true)
    (hfit : OldParser.digitsToNat s.data ≤ 2147483647) :
    ∃ sp loc, OldParser.parse_number_literal (OldParser.Span.ofString s) =
        .ok sp loc ∧
      loc.value = .IntValue (Int.ofNat (OldParser.digitsToNat s.data)) ∧
      sp.text = [] := by
  obtain ⟨c, cs, hs⟩ : ∃ c cs, s.data = c :: cs := by
    cases hd : s.data with
    | nil => exact absurd hd hne
    | cons c cs => exact ⟨c, cs, rfl⟩
  rw [hs] at hdig hfit
  have hcdig : c.isDigit = true := hdig c (List.mem_cons_self c cs)
  have hms1 : OldParser.multispace1 ⟨c :: cs, 1, 1⟩ = .err := by
    unfold OldParser.multispace1
    rw [List.takeWhile_cons_of_neg]
    · rfl
    · intro hb
      simp only [OldParser.isSpaceChar, Bool.or_eq_true, beq_iff_eq] at hb
      rcases hb with ((rfl | rfl) | rfl) | rfl <;> exact absurd hcdig (by decide)
  have hptag : OldParser.ptag "//" ⟨c :: cs, 1, 1⟩ = OldParser.PResult.err := by
    unfold OldParser.ptag
    rw [if_neg]
    intro hcon
    rw [show ("//" : String).length = 2 from rfl] at hcon
    simp [List.take_succ_cons] at hcon
    obtain ⟨rfl, -⟩ := hcon
    exact absurd hcdig (by decide)
  have htw : (c :: cs).takeWhile (fun x => !(x == '\r' || x == '\n')) = c :: cs := by
    apply List.takeWhile_eq_self_iff.mpr
    intro x hx
    have hxd := hdig x hx
    simp only [Bool.not_eq_true', Bool.or_eq_false_iff, beq_eq_false_iff_ne]
    constructor <;> (rintro rfl; exact absurd hxd (by decide))
  have hptagE : ∀ sp : OldParser.Span, sp.text = [] →
      OldParser.ptag "//" sp = .err := by
    intro sp h
    obtain ⟨t, l, co⟩ := sp
    simp only at h
    subst h
    rfl
  have hleE : ∀ sp : OldParser.Span, sp.text = [] →
      OldParser.palt OldParser.line_ending OldParser.eofP sp = .ok sp () := by
    intro sp h
    obtain ⟨t, l, co⟩ := sp
    simp only at h
    subst h
    rfl
  have htt : OldParser.take_till (fun x => x == '\r' || x == '\n')
      ⟨c :: cs, 1, 1⟩ =
      .ok (OldParser.Span.take ⟨c :: cs, 1, 1⟩ (c :: cs).length)
        (String.mk (c :: cs)) := by
    unfold OldParser.take_till
    simp only [htw]
  have hsp1 : (OldParser.Span.take ⟨c :: cs, 1, 1⟩ (c :: cs).length).text = [] := by
    simp [OldParser.Span.take]
  have hcomment : OldParser.comment ⟨c :: cs, 1, 1⟩ = .err := by
    unfold OldParser.comment OldParser.perm3 OldParser.pmap
    simp only [OldParser.perm3Go, hptag, htt, hptagE _ hsp1, hleE _ hsp1]
  have hskip : OldParser.skip0 ⟨c :: cs, 1, 1⟩ = .ok ⟨c :: cs, 1, 1⟩ () := by
    unfold OldParser.skip0 OldParser.many0 OldParser.pmap
    simp only [OldParser.many0Go, OldParser.palt, hcomment, hms1]
  have htwd : (c :: cs).takeWhile Char.isDigit = c :: cs :=
    List.takeWhile_eq_self_iff.mpr hdig
  have hd1 : OldParser.digit1 ⟨c :: cs, 1, 1⟩ =
      .ok (OldParser.Span.take ⟨c :: cs, 1, 1⟩ (c :: cs).length)
        (String.mk (c :: cs)) := by
    unfold OldParser.digit1
    simp only [htwd]
    rfl
  have hfit' : OldParser.digitsToNat (String.mk (c :: cs)).data ≤ 2147483647 := hfit
  simp only [OldParser.Span.ofString, hs]
  unfold OldParser.parse_number_literal OldParser.located OldParser.pmapPanic
  simp only [hskip, hd1, OldParser.parseI32, if_pos hfit', Option.map_some]
  exact ⟨_, _, rfl, rfl, hsp1⟩

/-- Witness for the C4 amended theorem at the input `41`. -/
theorem number_literal_i32_on_fitting_digits_witness :
    ("41".data ≠ [] ∧ (∀ x ∈ "41".data, x.isDigit = true) ∧
      OldParser.digitsToNat "41".data ≤ 2147483647) ∧
    ∃ sp loc, OldParser.parse_number_literal (OldParser.Span.ofString "41") =
        .ok sp loc ∧
      loc.value = .IntValue (Int.ofNat (OldParser.digitsToNat "41".data)) ∧
      sp.text = [] :=
  ⟨⟨by decide, by decide, by decide⟩,
    number_literal_i32_on_fitting_digits "41" (by decide) (by decide)
      (by decide)⟩

/-- Witness for the C5 amended theorem: `*` on integer literals panics;
`+` on fitting `i32` literals succeeds with an `add` instruction. -/
theorem binary_codegen_add_only_witness :
    (BinaryOp.Mul ≠ BinaryOp.Add ∧
      Builder.eval_binary_expr ⟨[], 0⟩ .Mul (.mk .I32 (.NumberLiteral "2"))
        (.mk .I32 (.NumberLiteral "3")) = none) ∧
    (Builder.parseForType .I32 "1" = some 1 ∧
      Builder.parseForType .I32 "2" = some 2 ∧
      ∃ st2 v, Builder.eval_binary_expr ⟨[], 0⟩ .Add
          (.mk .I32 (.NumberLiteral "1")) (.mk .I32 (.NumberLiteral "2")) =
          some (st2, some v) ∧
        ∃ pre a b, st2.instrs = pre ++ [Builder.Instr.addInstr a b]) := by
  refine ⟨⟨by decide, ?_⟩, rfl, rfl, ?_⟩
  · exact binary_codegen_add_only.1 ⟨[], 0⟩ .Mul
      (.mk .I32 (.NumberLiteral "2")) (.mk .I32 (.NumberLiteral "3"))
      (by decide)
  · exact binary_codegen_add_only.2 ⟨[], 0⟩ .I32 .I32 "1" "2" 1 2 rfl rfl
